import Mathlib

/-!
Verification development for the `github_summary` incremental-fetch and
filter pipeline.

The Python source is shallowly embedded:

* timestamps (`datetime` instants) are modelled as `Int` seconds
  (`Instant`); `timedelta(days=d)` is `d * 86400`;
* `async` functions become pure functions; the outcome of each awaited
  external effect (a GraphQL page request, an LLM call, a file write) is
  passed in explicitly as an `Except String _` value, `.error` modelling a
  raised exception;
* pydantic models become structures; pydantic's `__pydantic_fields_set__`
  bookkeeping (which `model_dump(exclude_unset=True)` consults) is carried
  as explicit `set_*` boolean fields next to the values, and pydantic's
  `__eq__` (which ignores the fields-set bookkeeping) is the `pyEq`
  relation on values only;
* `re.search` is an oracle parameter `research : String → String → Bool`;
* Python dicts keyed by field name (`model_dump` results used as
  `model_copy(update=...)` arguments) become update records with one
  `Option`-wrapped component per field, `none` meaning the key is absent.
-/

namespace GithubSummary

/-- A UTC instant, in seconds. -/
abbrev Instant := Int

/-- Embeds `timedelta(days=d)` as a number of seconds. -/
def timedelta_days (d : Int) : Int := d * 86400

/-! ## Remote Data Client: `GitHubService._paginate_graphql` -/

/-- The `pageInfo` object of one GraphQL page response. -/
structure PageInfo where
  hasNextPage : Bool
  endCursor : Option String
deriving DecidableEq

/-- One extracted page: `{nodes, pageInfo}` as produced by a page extractor. -/
structure Page (α : Type) where
  nodes : List α
  pageInfo : PageInfo

/-- The outcome of a full pagination: the accumulated nodes, the number of
pages fetched (the loop counter `i`), and whether the truncation warning
(`has_next_page and i >= max_pages`) fired. -/
structure PaginateResult (α : Type) where
  nodes : List α
  pagesFetched : Nat
  truncated : Bool
deriving DecidableEq

/-- The `while has_next_page and i < max_pages` loop of `_paginate_graphql`.
`fetch j` is the extracted page answered by the `j`-th GraphQL request (the
request sent with the cursor obtained from page `j - 1`); a `.error` models
the request raising, which the source re-raises to the caller. The fuel
argument is `max_pages - i`, so the loop state is `(i, acc, has_next_page)`. -/
def paginateAux {α : Type} (fetch : Nat → Except String (Page α)) :
    Nat → Nat → List α → Bool → Except String (List α × Nat × Bool)
  | 0, i, acc, hasNext => .ok (acc, i, hasNext)
  | _ + 1, i, acc, false => .ok (acc, i, false)
  | fuel + 1, i, acc, true =>
    match fetch i with
    | .error e => .error e
    | .ok page => paginateAux fetch fuel (i + 1) (acc ++ page.nodes) page.pageInfo.hasNextPage

/-- Embeds `GitHubService._paginate_graphql`: runs the pagination loop from
`i = 0`, `all_nodes = []`, `has_next_page = True`, then computes the final
truncation-warning condition `has_next_page and i >= max_pages`. -/
def paginate_graphql {α : Type} (fetch : Nat → Except String (Page α)) (maxPages : Nat) :
    Except String (PaginateResult α) :=
  match paginateAux fetch maxPages 0 [] true with
  | .error e => .error e
  | .ok (nodes, i, hasNext) => .ok ⟨nodes, i, hasNext && decide (maxPages ≤ i)⟩

/-- The source's default page ceiling: `max_pages: int = 5`, which every
caller in the repository uses unchanged. -/
def maxPagesDefault : Nat := 5

/-- A page source that never raises: every request succeeds and is extracted
to `pages j`. -/
def pureFetch {α : Type} (pages : Nat → Page α) : Nat → Except String (Page α) :=
  fun j => .ok (pages j)

/-! ## Incremental State Store: `last_run_manager` -/

/-- Embeds `_get_run_key`: `f"{config_path}::{repo_name}"` when a repository
name is given, otherwise the bare config path. -/
def _get_run_key (config_path : String) (repo_name : Option String) : String :=
  match repo_name with
  | some r => config_path ++ "::" ++ r
  | none => config_path

/-- Embeds `get_last_run_time`. `store` is the persisted mapping read from
`last_run_times.json` (`none` = key absent); `parse` is
`datetime.fromisoformat` followed by `astimezone(UTC)`, returning `none`
when the stored value raises `ValueError` (source logs a warning and
returns `None`). -/
def get_last_run_time (parse : String → Option Instant) (store : String → Option String)
    (config_path : String) (repo_name : Option String) : Option Instant :=
  match store (_get_run_key config_path repo_name) with
  | some s => parse s
  | none => none

/-- Embeds `calculate_since_time_for_repo_async` from `actions.py`:
the fallback is `now − timedelta(days=fallback_lookback_days)`; when
`since_last_run` is false the fallback is returned immediately; otherwise
the repository-qualified entry is tried first, then the bare (global)
entry, then the fallback. -/
def calculate_since_time_for_repo (parse : String → Option Instant)
    (store : String → Option String) (now : Instant) (since_last_run : Bool)
    (fallback_lookback_days : Int) (config_path : String) (repo_name : String) : Instant :=
  let fallback_since := now - timedelta_days fallback_lookback_days
  if !since_last_run then fallback_since
  else
    match get_last_run_time parse store config_path (some repo_name) with
    | some t => t
    | none =>
      match get_last_run_time parse store config_path none with
      | some t => t
      | none => fallback_since

/-! ## Filter Engine data model: `models.py`

Each pydantic sub-config is a structure holding the field values together
with `set_*` booleans modelling `__pydantic_fields_set__` (false for a
field filled from its default). For each sub-config there is an update
record (a `model_dump` result viewed as a dict), the two dump modes used by
the source (`exclude_none=True` in `FilterConfig.merge_with`,
`exclude_unset=True` in `actions.merge_filters`), and
`model_copy(update=...)`, which overwrites the updated values and adds the
update's keys to the fields-set bookkeeping. -/

/-- Embeds `CommitFilterConfig`. -/
structure CommitFilterConfig where
  author : Option String
  exclude_commit_messages_regex : Option String
  set_author : Bool
  set_exclude_commit_messages_regex : Bool
deriving DecidableEq

/-- The pydantic defaults of `CommitFilterConfig` (nothing explicitly set). -/
def CommitFilterConfig.default : CommitFilterConfig :=
  ⟨none, none, false, false⟩

/-- A `model_dump` of a `CommitFilterConfig`: `none` components are keys
absent from the dumped dict. -/
structure CommitFilterUpdate where
  author : Option (Option String)
  exclude_commit_messages_regex : Option (Option String)

/-- Embeds `model_dump(exclude_none=True)` on `CommitFilterConfig`. -/
def CommitFilterConfig.dump_exclude_none (c : CommitFilterConfig) : CommitFilterUpdate :=
  { author := c.author.map some
    exclude_commit_messages_regex := c.exclude_commit_messages_regex.map some }

/-- Embeds `model_dump(exclude_unset=True)` on `CommitFilterConfig`. -/
def CommitFilterConfig.dump_exclude_unset (c : CommitFilterConfig) : CommitFilterUpdate :=
  { author := if c.set_author then some c.author else none
    exclude_commit_messages_regex :=
      if c.set_exclude_commit_messages_regex then some c.exclude_commit_messages_regex else none }

/-- Embeds `model_copy(update=u)` on `CommitFilterConfig`. -/
def CommitFilterConfig.model_copy_update (c : CommitFilterConfig) (u : CommitFilterUpdate) :
    CommitFilterConfig :=
  { author := u.author.getD c.author
    exclude_commit_messages_regex :=
      u.exclude_commit_messages_regex.getD c.exclude_commit_messages_regex
    set_author := c.set_author || u.author.isSome
    set_exclude_commit_messages_regex :=
      c.set_exclude_commit_messages_regex || u.exclude_commit_messages_regex.isSome }

/-- Pydantic `__eq__` on `CommitFilterConfig`: compares field values only,
never the fields-set bookkeeping. -/
def CommitFilterConfig.pyEq (a b : CommitFilterConfig) : Prop :=
  a.author = b.author ∧ a.exclude_commit_messages_regex = b.exclude_commit_messages_regex

/-- Embeds `PullRequestFilterConfig`; `since_filter_type` is a
`Literal["updated", "created"]` with (non-null) default `"updated"`. -/
structure PullRequestFilterConfig where
  author : Option String
  state : Option String
  labels : Option (List String)
  exclude_pull_request_titles_regex : Option String
  since_filter_type : String
  set_author : Bool
  set_state : Bool
  set_labels : Bool
  set_exclude_pull_request_titles_regex : Bool
  set_since_filter_type : Bool
deriving DecidableEq

/-- The pydantic defaults of `PullRequestFilterConfig`. -/
def PullRequestFilterConfig.default : PullRequestFilterConfig :=
  ⟨none, none, none, none, "updated", false, false, false, false, false⟩

/-- A `model_dump` of a `PullRequestFilterConfig`. -/
structure PullRequestFilterUpdate where
  author : Option (Option String)
  state : Option (Option String)
  labels : Option (Option (List String))
  exclude_pull_request_titles_regex : Option (Option String)
  since_filter_type : Option String

/-- Embeds `model_dump(exclude_none=True)` on `PullRequestFilterConfig`;
`since_filter_type` is never `None`, so it is always dumped. -/
def PullRequestFilterConfig.dump_exclude_none (c : PullRequestFilterConfig) :
    PullRequestFilterUpdate :=
  { author := c.author.map some
    state := c.state.map some
    labels := c.labels.map some
    exclude_pull_request_titles_regex := c.exclude_pull_request_titles_regex.map some
    since_filter_type := some c.since_filter_type }

/-- Embeds `model_dump(exclude_unset=True)` on `PullRequestFilterConfig`. -/
def PullRequestFilterConfig.dump_exclude_unset (c : PullRequestFilterConfig) :
    PullRequestFilterUpdate :=
  { author := if c.set_author then some c.author else none
    state := if c.set_state then some c.state else none
    labels := if c.set_labels then some c.labels else none
    exclude_pull_request_titles_regex :=
      if c.set_exclude_pull_request_titles_regex
      then some c.exclude_pull_request_titles_regex else none
    since_filter_type := if c.set_since_filter_type then some c.since_filter_type else none }

/-- Embeds `model_copy(update=u)` on `PullRequestFilterConfig`. -/
def PullRequestFilterConfig.model_copy_update (c : PullRequestFilterConfig)
    (u : PullRequestFilterUpdate) : PullRequestFilterConfig :=
  { author := u.author.getD c.author
    state := u.state.getD c.state
    labels := u.labels.getD c.labels
    exclude_pull_request_titles_regex :=
      u.exclude_pull_request_titles_regex.getD c.exclude_pull_request_titles_regex
    since_filter_type := u.since_filter_type.getD c.since_filter_type
    set_author := c.set_author || u.author.isSome
    set_state := c.set_state || u.state.isSome
    set_labels := c.set_labels || u.labels.isSome
    set_exclude_pull_request_titles_regex :=
      c.set_exclude_pull_request_titles_regex || u.exclude_pull_request_titles_regex.isSome
    set_since_filter_type := c.set_since_filter_type || u.since_filter_type.isSome }

/-- Pydantic `__eq__` on `PullRequestFilterConfig` (values only). -/
def PullRequestFilterConfig.pyEq (a b : PullRequestFilterConfig) : Prop :=
  a.author = b.author ∧ a.state = b.state ∧ a.labels = b.labels ∧
    a.exclude_pull_request_titles_regex = b.exclude_pull_request_titles_regex ∧
    a.since_filter_type = b.since_filter_type

/-- Embeds `IssueFilterConfig`. -/
structure IssueFilterConfig where
  author : Option String
  milestone : Option String
  labels : Option (List String)
  assignee : Option String
  exclude_issue_titles_regex : Option String
  set_author : Bool
  set_milestone : Bool
  set_labels : Bool
  set_assignee : Bool
  set_exclude_issue_titles_regex : Bool
deriving DecidableEq

/-- The pydantic defaults of `IssueFilterConfig`. -/
def IssueFilterConfig.default : IssueFilterConfig :=
  ⟨none, none, none, none, none, false, false, false, false, false⟩

/-- A `model_dump` of an `IssueFilterConfig`. -/
structure IssueFilterUpdate where
  author : Option (Option String)
  milestone : Option (Option String)
  labels : Option (Option (List String))
  assignee : Option (Option String)
  exclude_issue_titles_regex : Option (Option String)

/-- Embeds `model_dump(exclude_none=True)` on `IssueFilterConfig`. -/
def IssueFilterConfig.dump_exclude_none (c : IssueFilterConfig) : IssueFilterUpdate :=
  { author := c.author.map some
    milestone := c.milestone.map some
    labels := c.labels.map some
    assignee := c.assignee.map some
    exclude_issue_titles_regex := c.exclude_issue_titles_regex.map some }

/-- Embeds `model_dump(exclude_unset=True)` on `IssueFilterConfig`. -/
def IssueFilterConfig.dump_exclude_unset (c : IssueFilterConfig) : IssueFilterUpdate :=
  { author := if c.set_author then some c.author else none
    milestone := if c.set_milestone then some c.milestone else none
    labels := if c.set_labels then some c.labels else none
    assignee := if c.set_assignee then some c.assignee else none
    exclude_issue_titles_regex :=
      if c.set_exclude_issue_titles_regex then some c.exclude_issue_titles_regex else none }

/-- Embeds `model_copy(update=u)` on `IssueFilterConfig`. -/
def IssueFilterConfig.model_copy_update (c : IssueFilterConfig) (u : IssueFilterUpdate) :
    IssueFilterConfig :=
  { author := u.author.getD c.author
    milestone := u.milestone.getD c.milestone
    labels := u.labels.getD c.labels
    assignee := u.assignee.getD c.assignee
    exclude_issue_titles_regex :=
      u.exclude_issue_titles_regex.getD c.exclude_issue_titles_regex
    set_author := c.set_author || u.author.isSome
    set_milestone := c.set_milestone || u.milestone.isSome
    set_labels := c.set_labels || u.labels.isSome
    set_assignee := c.set_assignee || u.assignee.isSome
    set_exclude_issue_titles_regex :=
      c.set_exclude_issue_titles_regex || u.exclude_issue_titles_regex.isSome }

/-- Pydantic `__eq__` on `IssueFilterConfig` (values only). -/
def IssueFilterConfig.pyEq (a b : IssueFilterConfig) : Prop :=
  a.author = b.author ∧ a.milestone = b.milestone ∧ a.labels = b.labels ∧
    a.assignee = b.assignee ∧ a.exclude_issue_titles_regex = b.exclude_issue_titles_regex

/-- Embeds `DiscussionFilterConfig`. -/
structure DiscussionFilterConfig where
  author : Option String
  exclude_discussion_titles_regex : Option String
  set_author : Bool
  set_exclude_discussion_titles_regex : Bool
deriving DecidableEq

/-- The pydantic defaults of `DiscussionFilterConfig`. -/
def DiscussionFilterConfig.default : DiscussionFilterConfig :=
  ⟨none, none, false, false⟩

/-- A `model_dump` of a `DiscussionFilterConfig`. -/
structure DiscussionFilterUpdate where
  author : Option (Option String)
  exclude_discussion_titles_regex : Option (Option String)

/-- Embeds `model_dump(exclude_none=True)` on `DiscussionFilterConfig`. -/
def DiscussionFilterConfig.dump_exclude_none (c : DiscussionFilterConfig) :
    DiscussionFilterUpdate :=
  { author := c.author.map some
    exclude_discussion_titles_regex := c.exclude_discussion_titles_regex.map some }

/-- Embeds `model_dump(exclude_unset=True)` on `DiscussionFilterConfig`. -/
def DiscussionFilterConfig.dump_exclude_unset (c : DiscussionFilterConfig) :
    DiscussionFilterUpdate :=
  { author := if c.set_author then some c.author else none
    exclude_discussion_titles_regex :=
      if c.set_exclude_discussion_titles_regex
      then some c.exclude_discussion_titles_regex else none }

/-- Embeds `model_copy(update=u)` on `DiscussionFilterConfig`. -/
def DiscussionFilterConfig.model_copy_update (c : DiscussionFilterConfig)
    (u : DiscussionFilterUpdate) : DiscussionFilterConfig :=
  { author := u.author.getD c.author
    exclude_discussion_titles_regex :=
      u.exclude_discussion_titles_regex.getD c.exclude_discussion_titles_regex
    set_author := c.set_author || u.author.isSome
    set_exclude_discussion_titles_regex :=
      c.set_exclude_discussion_titles_regex || u.exclude_discussion_titles_regex.isSome }

/-- Pydantic `__eq__` on `DiscussionFilterConfig` (values only). -/
def DiscussionFilterConfig.pyEq (a b : DiscussionFilterConfig) : Prop :=
  a.author = b.author ∧
    a.exclude_discussion_titles_regex = b.exclude_discussion_titles_regex

/-- Embeds `FilterConfig`: the aggregate of the four per-data-type
sub-configs, each defaulting via `default_factory`. -/
structure FilterConfig where
  commits : CommitFilterConfig
  pull_requests : PullRequestFilterConfig
  issues : IssueFilterConfig
  discussions : DiscussionFilterConfig
deriving DecidableEq

/-- The pydantic defaults of `FilterConfig`. -/
def FilterConfig.default : FilterConfig :=
  ⟨.default, .default, .default, .default⟩

/-- Pydantic `__eq__` on `FilterConfig` (values only). -/
def FilterConfig.pyEq (a b : FilterConfig) : Prop :=
  a.commits.pyEq b.commits ∧ a.pull_requests.pyEq b.pull_requests ∧
    a.issues.pyEq b.issues ∧ a.discussions.pyEq b.discussions

/-- Embeds `FilterConfig.merge_with` from `models.py`: every sub-config of
`self` is replaced by `self_sub.model_copy(update=other_sub.model_dump(exclude_none=True))`.
The source mutates `self` in place and returns it; value-wise this is the
returned record. -/
def FilterConfig.merge_with (self other : FilterConfig) : FilterConfig :=
  { commits := self.commits.model_copy_update other.commits.dump_exclude_none
    pull_requests := self.pull_requests.model_copy_update other.pull_requests.dump_exclude_none
    issues := self.issues.model_copy_update other.issues.dump_exclude_none
    discussions := self.discussions.model_copy_update other.discussions.dump_exclude_none }

/-- Embeds `merge_filters` from `actions.py`: starts from a deep copy of the
global filters and, for each of the four data-type fields (sub-config
instances are always truthy in Python, so neither the `if not repo.filters`
guard nor the per-field truthiness guards ever skip), replaces it with
`current.model_copy(update=repo_sub.model_dump(exclude_unset=True))`. -/
def merge_filters (repoFilters : FilterConfig) (global_filters : FilterConfig) : FilterConfig :=
  { commits := global_filters.commits.model_copy_update repoFilters.commits.dump_exclude_unset
    pull_requests :=
      global_filters.pull_requests.model_copy_update repoFilters.pull_requests.dump_exclude_unset
    issues := global_filters.issues.model_copy_update repoFilters.issues.dump_exclude_unset
    discussions :=
      global_filters.discussions.model_copy_update repoFilters.discussions.dump_exclude_unset }

/-- The filter spec a repository's fetch actually uses: the config-load
validator `Config.merge_global_filters` first replaces the repository's
filters by `global.model_copy(deep=True).merge_with(repo_filters)`, and
`fetch_repo_data` then calls `merge_filters` on that result against the
global filters again. -/
def effective_filters (global_filters repoFilters : FilterConfig) : FilterConfig :=
  merge_filters (FilterConfig.merge_with global_filters repoFilters) global_filters

/-! ## GitHub API data models (`models.py`) and per-item filtering
(`github_client.py`)

Raw GraphQL nodes are embedded as structures whose timestamp strings have
already been parsed to `Instant`s (the source parses them with
`datetime.fromisoformat(...).astimezone(UTC)` before comparing); nullable
GraphQL objects (`author`, `milestone`, `assignees`) are `Option`s, `none`
modelling JSON `null` (falsy in the source's truthiness guards). -/

/-- Embeds the `PullRequest` output model. -/
structure PullRequest where
  number : Int
  title : String
  body : String
  author : String
  state : String
  created_at : Instant
  updated_at : Instant
  merged_at : Option Instant
  html_url : String
  labels : List String
deriving DecidableEq

/-- Embeds the `Issue` output model. -/
structure Issue where
  number : Int
  title : String
  body : String
  author : String
  state : String
  created_at : Instant
  html_url : String
  labels : List String
deriving DecidableEq

/-- Embeds the `Commit` output model. -/
structure Commit where
  sha : String
  author : String
  message : String
  date : Instant
  html_url : String
deriving DecidableEq

/-- Embeds the `Discussion` output model. -/
structure Discussion where
  id : String
  title : String
  body : String
  author : String
  created_at : Instant
  html_url : String
  labels : List String
deriving DecidableEq

/-- A raw pull-request node as consumed by `get_pull_requests`:
`labels` is the flattened `labels.nodes[*].name` list and `author` the
nullable `author.login`. -/
structure PRItem where
  number : Int
  title : String
  body : String
  author : Option String
  state : String
  createdAt : Instant
  updatedAt : Instant
  mergedAt : Option Instant
  url : String
  labels : List String
deriving DecidableEq

/-- The filtering loop body of `get_pull_requests` for one item: selects the
comparison date by `since_filter_type`, then applies, in source order, the
since cutoff, the author guard (skipped when the node's `author` is null),
the state guard, the label all-of containment guard (skipped when the
required list is `None` or empty, both falsy), and the title-exclusion
regex guard. `research pat s` is `re.search(pat, s)` viewed as a Boolean
oracle. -/
def pr_passes (research : String → String → Bool) (filters : FilterConfig)
    (since : Instant) (item : PRItem) : Bool :=
  let pr_date :=
    if filters.pull_requests.since_filter_type = "updated" then item.updatedAt
    else item.createdAt
  if pr_date < since then false
  else if (match filters.pull_requests.author, item.author with
           | some fa, some login => login != fa
           | _, _ => false) then false
  else if (match filters.pull_requests.state with
           | some st => item.state != st
           | none => false) then false
  else if (match filters.pull_requests.labels with
           | some req => !req.isEmpty && !req.all (fun l => item.labels.contains l)
           | none => false) then false
  else if (match filters.pull_requests.exclude_pull_request_titles_regex with
           | some pat => research pat item.title
           | none => false) then false
  else true

/-- The model conversion at the end of `get_pull_requests`' loop:
`author` falls back to `"Unknown"` when the node's author is null. -/
def prToModel (item : PRItem) : PullRequest :=
  { number := item.number
    title := item.title
    body := item.body
    author := item.author.getD "Unknown"
    state := item.state
    created_at := item.createdAt
    updated_at := item.updatedAt
    merged_at := item.mergedAt
    html_url := item.url
    labels := item.labels }

/-- Embeds `get_pull_requests` downstream of pagination: `prData` is the
node list returned by `_paginate_graphql`; disabled repositories return
`[]` immediately. -/
def get_pull_requests (research : String → String → Bool) (include_pull_requests : Bool)
    (filters : FilterConfig) (since : Instant) (prData : List PRItem) : List PullRequest :=
  if !include_pull_requests then []
  else (prData.filter (pr_passes research filters since)).map prToModel

/-- A raw issue node as consumed by `get_issues`: `milestone` is the
nullable milestone title, `assignees` the nullable `assignees.nodes[*].login`
list (the whole connection object may be null/absent). -/
structure IssueItem where
  number : Int
  title : String
  body : String
  author : Option String
  state : String
  createdAt : Instant
  url : String
  labels : List String
  milestone : Option String
  assignees : Option (List String)
deriving DecidableEq

/-- The filtering loop body of `get_issues` for one item. The since cutoff
is pushed into the search query server-side, so only the non-temporal
guards run, in source order: author (skipped when the node's author is
null), label all-of containment (skipped for a `None` or empty required
list), milestone equality (skipped when the issue's milestone is null),
assignee membership (skipped when the assignees connection is null), and
the title-exclusion regex. -/
def issue_passes (research : String → String → Bool) (filters : FilterConfig)
    (item : IssueItem) : Bool :=
  if (match filters.issues.author, item.author with
      | some fa, some login => login != fa
      | _, _ => false) then false
  else if (match filters.issues.labels with
           | some req => !req.isEmpty && !req.all (fun l => item.labels.contains l)
           | none => false) then false
  else if (match filters.issues.milestone, item.milestone with
           | some m, some t => t != m
           | _, _ => false) then false
  else if (match filters.issues.assignee, item.assignees with
           | some fa, some asg => !asg.any (fun login => login == fa)
           | _, _ => false) then false
  else if (match filters.issues.exclude_issue_titles_regex with
           | some pat => research pat item.title
           | none => false) then false
  else true

/-- The model conversion at the end of `get_issues`' loop. -/
def issueToModel (item : IssueItem) : Issue :=
  { number := item.number
    title := item.title
    body := item.body
    author := item.author.getD "Unknown"
    state := item.state
    created_at := item.createdAt
    html_url := item.url
    labels := item.labels }

/-- Embeds `get_issues` downstream of pagination. -/
def get_issues (research : String → String → Bool) (include_issues : Bool)
    (filters : FilterConfig) (issuesData : List IssueItem) : List Issue :=
  if !include_issues then []
  else (issuesData.filter (issue_passes research filters)).map issueToModel

/-! ## Releases (spec-modelled)

`tests/test_releases.py` imports `ReleaseFilterConfig` from
`github_summary.models`, constructs `RepoConfig(include_releases=...)` and
calls `GitHubService.get_releases`, but none of those appear in the
provided `src/github_summary` modules: the production release code of this
repository is missing from `src/`, only its tests are present. The
definitions below are therefore modelled from the spec rather than
translated from source. -/

/-- Modelled from the spec: the missing `ReleaseFilterConfig` pydantic model
(§3 FilterSpec, releases use a name-exclusion regex), whose only predicate
field named by the tests is `exclude_release_names_regex`. -/
structure ReleaseFilterConfig where
  exclude_release_names_regex : Option String
deriving DecidableEq

/-- A raw release node, shaped as in the tests' sample GraphQL responses. -/
structure ReleaseItem where
  id : String
  name : String
  tagName : String
  description : String
  publishedAt : Instant
  url : String
  author : Option String
deriving DecidableEq

/-- Modelled from the spec: the missing `Release` output model
(§3 ActivityItem: stable id, author, primary timestamp, URL,
type-specific name/description). -/
structure Release where
  id : String
  name : String
  tag_name : String
  description : String
  author : String
  published_at : Instant
  html_url : String
deriving DecidableEq

/-- Modelled from the spec: the per-item filter of the missing
`get_releases` (§4.2: releases are analogous to discussions, keyed on the
publish timestamp and the name-exclusion regex) — reject when the publish
timestamp is before the since boundary or when the configured
name-exclusion regex matches the release name. -/
def release_passes (research : String → String → Bool) (rf : ReleaseFilterConfig)
    (since : Instant) (item : ReleaseItem) : Bool :=
  if item.publishedAt < since then false
  else if (match rf.exclude_release_names_regex with
           | some pat => research pat item.name
           | none => false) then false
  else true

/-- Modelled from the spec: the conversion of a surviving release node to a
`Release` record, author falling back to `"Unknown"` as for the other data
types. -/
def releaseToModel (item : ReleaseItem) : Release :=
  { id := item.id
    name := item.name
    tag_name := item.tagName
    description := item.description
    author := item.author.getD "Unknown"
    published_at := item.publishedAt
    html_url := item.url }

/-- Modelled from the spec: the missing `get_releases` — `[]` when the
repository disables releases, otherwise the filtered nodes converted to
`Release` records. -/
def get_releases (research : String → String → Bool) (include_releases : Bool)
    (rf : ReleaseFilterConfig) (since : Instant) (releasesData : List ReleaseItem) :
    List Release :=
  if !include_releases then []
  else (releasesData.filter (release_passes research rf since)).map releaseToModel

/-- Modelled from the spec: the releases entry of the repository dataset —
like the four source data types in `fetch_repo_data`, an enabled type maps
to its fetched list with an exception degrading to `[]`, and a disabled
type to `[]`. -/
def releases_dataset_entry (include_releases : Bool)
    (releasesRes : Except String (List Release)) : List Release :=
  if include_releases then
    match releasesRes with
    | .ok l => l
    | .error _ => []
  else []

/-! ## Repository Processor and Orchestrator: `actions.py` -/

/-- Embeds `RepoConfig` (the schedule field, unused by the core pipeline,
is omitted). -/
structure RepoConfig where
  name : String
  filters : FilterConfig
  include_commits : Bool
  include_pull_requests : Bool
  include_issues : Bool
  include_discussions : Bool
deriving DecidableEq

/-- The dataset dict returned by `fetch_repo_data`: the repository name and
one entry per data type (the source stores `model_dump` dicts; here the
typed records are kept). -/
structure RepoData where
  repo : String
  commits : List Commit
  pull_requests : List PullRequest
  issues : List Issue
  discussions : List Discussion
deriving DecidableEq

/-- Embeds `fetch_repo_data` around its `asyncio.gather(...,
return_exceptions=True)`: one `Except` per data type models the awaited
task outcome. A task exists only for an enabled type (a disabled type's
key is absent and defaults to `[]` via `data_results.get`), and an
exception result is logged and replaced by `[]`. -/
def fetch_repo_data (repo : RepoConfig)
    (commitsRes : Except String (List Commit))
    (pullRequestsRes : Except String (List PullRequest))
    (issuesRes : Except String (List Issue))
    (discussionsRes : Except String (List Discussion)) : RepoData :=
  { repo := repo.name
    commits :=
      if repo.include_commits then
        match commitsRes with
        | .ok l => l
        | .error _ => []
      else []
    pull_requests :=
      if repo.include_pull_requests then
        match pullRequestsRes with
        | .ok l => l
        | .error _ => []
      else []
    issues :=
      if repo.include_issues then
        match issuesRes with
        | .ok l => l
        | .error _ => []
      else []
    discussions :=
      if repo.include_discussions then
        match discussionsRes with
        | .ok l => l
        | .error _ => []
      else [] }

/-- The result tuple of `process_repository`:
`(repo_name, completion_time, summary, repo_data)`. A failed repository
returns the literal empty dict `{}` for its dataset, modelled as `none`. -/
structure RunResult where
  repoName : String
  completionTime : Option Instant
  summary : String
  repoData : Option RepoData
deriving DecidableEq

/-- The environment of one repository's processing: the outcome of each
awaited step of `process_repository` (since-time resolution, the
`fetch_repo_data` call, summarization, the two output saves), plus the
wall-clock instant `datetime.now(UTC)` would return at completion. -/
structure RepoEnv where
  sinceRes : Except String Instant
  fetchRes : Instant → Except String RepoData
  summaryRes : RepoData → Except String String
  saveMarkdownRes : Except String Unit
  saveJsonRes : Except String Unit
  completionNow : Instant

/-- Steps 1–5 of `process_repository` (the body of its `try`): resolve the
since boundary, fetch, summarize, then save the markdown and JSON outputs
when the corresponding flags are on. Any step's exception aborts the
pipeline. -/
def repoPipeline (save_markdown save_json : Bool) (env : RepoEnv) :
    Except String (String × RepoData) := do
  let since ← env.sinceRes
  let repo_data ← env.fetchRes since
  let summary ← env.summaryRes repo_data
  let _ ← if save_markdown then env.saveMarkdownRes else .ok ()
  let _ ← if save_json then env.saveJsonRes else .ok ()
  pure (summary, repo_data)

/-- Embeds `process_repository`: on success the completion time is
`now` when `config.since_last_run` is set (else `None`); the whole-body
`except Exception` returns `(repo.name, None, "", {})` — `completion_time`
is still `None` there because every raising step precedes its assignment. -/
def process_repository (repo : RepoConfig) (since_last_run save_markdown save_json : Bool)
    (env : RepoEnv) : RunResult :=
  match repoPipeline save_markdown save_json env with
  | .ok (summary, repo_data) =>
    { repoName := repo.name
      completionTime := if since_last_run then some env.completionNow else none
      summary := summary
      repoData := some repo_data }
  | .error _ =>
    { repoName := repo.name, completionTime := none, summary := "", repoData := none }

/-- The `asyncio.gather` over `process_with_semaphore` in `run_report`: one
`RunResult` per configured repository (the `isinstance(result, Exception)`
guard is dead in the model because `process_repository` never raises). -/
def gatherResults (since_last_run save_markdown save_json : Bool)
    (envOf : RepoConfig → RepoEnv) (repos : List RepoConfig) : List RunResult :=
  repos.map fun repo => process_repository repo since_last_run save_markdown save_json (envOf repo)

/-- Python dict assignment `d[k] = v` on an insertion-ordered association
list: replaces the value in place when the key exists, else appends. -/
def dictInsert (m : List (String × Instant)) (k : String) (v : Instant) :
    List (String × Instant) :=
  if m.any (fun p => p.1 == k) then m.map (fun p => if p.1 == k then (k, v) else p)
  else m ++ [(k, v)]

/-- The result-processing loop of `run_report` that builds
`last_run_updates`: for every result with a non-null completion time, set
`last_run_updates[_get_run_key(config_path, repo_name)] = completion_time`. -/
def collect_last_run_updates (config_path : String) (results : List RunResult) :
    List (String × Instant) :=
  results.foldl
    (fun acc r =>
      match r.completionTime with
      | some t => dictInsert acc (_get_run_key config_path (some r.repoName)) t
      | none => acc)
    []

/-- What `run_report`'s processing phase produces: the settled results and
the list of `set_multiple_last_run_times` invocations it performs (each
element one call, carrying that call's update map). The source guards the
call with `if last_run_updates:`, so an empty map produces no call. -/
structure RunReportOutcome where
  results : List RunResult
  setBatchCalls : List (List (String × Instant))
deriving DecidableEq

/-- Embeds the per-repository phase of `run_report`: gather all results,
build the batched update map from them, and invoke the state store's
batched update once — only when the map is non-empty. -/
def run_report (config_path : String) (since_last_run save_markdown save_json : Bool)
    (envOf : RepoConfig → RepoEnv) (repos : List RepoConfig) : RunReportOutcome :=
  let results := gatherResults since_last_run save_markdown save_json envOf repos
  let last_run_updates := collect_last_run_updates config_path results
  { results := results
    setBatchCalls := if last_run_updates.isEmpty then [] else [last_run_updates] }

/-! ## Theorems -/

/-- Helper: one step of the pagination loop on a never-failing page source. -/
theorem paginateAux_step {α : Type} (pages : Nat → Page α) (fuel i : Nat) (acc : List α) :
    paginateAux (pureFetch pages) (fuel + 1) i acc true
      = paginateAux (pureFetch pages) fuel (i + 1) (acc ++ (pages i).nodes)
          (pages i).pageInfo.hasNextPage := rfl

/-- Helper: on a page source whose every page still reports a next page, the
pagination loop consumes all its fuel, fetching one page per unit. -/
theorem paginateAux_all_next {α : Type} (pages : Nat → Page α)
    (h : ∀ j, (pages j).pageInfo.hasNextPage = true) :
    ∀ (fuel i : Nat) (acc : List α),
      paginateAux (pureFetch pages) fuel i acc true
        = .ok (acc ++ ((List.range' i fuel).map fun j => (pages j).nodes).flatten, i + fuel, true) := by
  intro fuel
  induction fuel with
  | zero => intro i acc; simp [paginateAux]
  | succ n ih =>
    intro i acc
    rw [paginateAux_step, h i, ih (i + 1) (acc ++ (pages i).nodes)]
    simp [List.range'_succ, List.append_assoc]
    omega

/-- C3: for a page extractor that always reports `has_next_page = true` (and
requests that never raise), `_paginate_graphql` terminates after fetching
exactly `max_pages` pages — never more — the truncation condition fires as a
warning rather than an exception, and the accumulated (truncated) node list
is still returned; the default ceiling is 5. -/
theorem paginate_stops_at_max_pages {α : Type} (pages : Nat → Page α) (maxPages : Nat)
    (h : ∀ j, (pages j).pageInfo.hasNextPage = true) :
    maxPagesDefault = 5 ∧
      paginate_graphql (pureFetch pages) maxPages
        = .ok ⟨((List.range maxPages).map fun j => (pages j).nodes).flatten, maxPages, true⟩ := by
  refine ⟨rfl, ?_⟩
  unfold paginate_graphql
  rw [paginateAux_all_next pages h maxPages 0 []]
  simp [List.range_eq_range']

/-- A page source for the witness: every page holds one node and always
reports a next page. -/
def allNextPages : Nat → Page Nat := fun _ => ⟨[7], ⟨true, none⟩⟩

/-- Witness for C3 at the default ceiling. -/
theorem paginate_stops_at_max_pages_witness :
    paginate_graphql (pureFetch allNextPages) maxPagesDefault
      = .ok ⟨[7, 7, 7, 7, 7], 5, true⟩ := by
  rw [(paginate_stops_at_max_pages allNextPages maxPagesDefault (fun _ => rfl)).2]
  rfl

/-- C4: the since boundary resolution order. With tracking disabled the
boundary is `now − lookback` for every store state. With tracking enabled:
a present-and-parseable repository-qualified entry wins; otherwise a
present-and-parseable unqualified (global) entry; otherwise the lookback
fallback. The final conjunct ties `get_last_run_time = none` to
"absent or unparseable". -/
theorem since_time_resolution_order (parse : String → Option Instant)
    (store : String → Option String) (now : Instant) (lookback : Int)
    (config_path repo_name : String) :
    (∀ store' : String → Option String,
      calculate_since_time_for_repo parse store' now false lookback config_path repo_name
        = now - timedelta_days lookback) ∧
    (∀ s t, store (_get_run_key config_path (some repo_name)) = some s → parse s = some t →
      calculate_since_time_for_repo parse store now true lookback config_path repo_name = t) ∧
    (∀ t, get_last_run_time parse store config_path (some repo_name) = none →
      get_last_run_time parse store config_path none = some t →
      calculate_since_time_for_repo parse store now true lookback config_path repo_name = t) ∧
    (get_last_run_time parse store config_path (some repo_name) = none →
      get_last_run_time parse store config_path none = none →
      calculate_since_time_for_repo parse store now true lookback config_path repo_name
        = now - timedelta_days lookback) ∧
    (∀ rn : Option String,
      get_last_run_time parse store config_path rn = none ↔
        store (_get_run_key config_path rn) = none ∨
          ∃ s, store (_get_run_key config_path rn) = some s ∧ parse s = none) := by
  refine ⟨fun store' => rfl, ?_, ?_, ?_, ?_⟩
  · intro s t hs ht
    simp [calculate_since_time_for_repo, get_last_run_time, hs, ht]
  · intro t hrepo hglobal
    simp [calculate_since_time_for_repo, hrepo, hglobal]
  · intro hrepo hglobal
    simp [calculate_since_time_for_repo, hrepo, hglobal]
  · intro rn
    unfold get_last_run_time
    cases hs : store (_get_run_key config_path rn) with
    | none => simp
    | some s =>
      cases hp : parse s with
      | none => simp [hp]
      | some t => simp [hp]

/-- A concrete store for the C4 witness: the repository-qualified key holds
a parseable timestamp, the global key an unparseable one. -/
def sampleStore : String → Option String := fun k =>
  if k == "cfg::owner/repo" then some "good"
  else if k == "cfg" then some "bad" else none

/-- A concrete timestamp parser for the C4 witness. -/
def sampleParse : String → Option Instant := fun s =>
  if s == "good" then some 100 else none

/-- Witness for C4: the repository-qualified entry wins with tracking on;
the fallback is used with tracking off. -/
theorem since_time_resolution_order_witness :
    calculate_since_time_for_repo sampleParse sampleStore 1000 true 7 "cfg" "owner/repo" = 100 ∧
    calculate_since_time_for_repo sampleParse sampleStore 1000 false 7 "cfg" "owner/repo"
      = 1000 - timedelta_days 7 := by
  refine ⟨?_, ?_⟩
  · exact (since_time_resolution_order sampleParse sampleStore 1000 7 "cfg" "owner/repo").2.1
      "good" 100 (by decide) (by decide)
  · exact (since_time_resolution_order sampleParse sampleStore 1000 7 "cfg" "owner/repo").1
      sampleStore

/-- Right-biased override of one optional field: the repository-side value
when non-null, else the global-side value. -/
def overrideOpt {α : Type} (repoVal globalVal : Option α) : Option α :=
  match repoVal with
  | some a => some a
  | none => globalVal

/-- Helper: `model_copy(update=dump(exclude_none))` on one optional field is
the right-biased override of the values. -/
theorem map_some_getD {α : Type} (o g : Option α) : (o.map some).getD g = overrideOpt o g := by
  cases o <;> rfl

/-- Helper: re-applying the same `exclude_none` update to an optional field
changes nothing. -/
theorem map_some_getD_twice {α : Type} (o g : Option α) :
    (o.map some).getD ((o.map some).getD g) = (o.map some).getD g := by
  cases o <;> rfl

/-- Helper: the `exclude_none` update of an optional field applied to the
field itself is the identity on the value. -/
theorem map_some_getD_self {α : Type} (o : Option α) : (o.map some).getD o = o := by
  cases o <;> rfl

/-- A global filter spec that explicitly sets the pull-request
`since_filter_type` to `"created"` and nothing else. -/
def globalCreatedPR : FilterConfig :=
  { FilterConfig.default with
      pull_requests :=
        { PullRequestFilterConfig.default with
            since_filter_type := "created", set_since_filter_type := true } }

/-- C5 counterexample: merge a global spec that sets
`pull_requests.since_filter_type = "created"` with a repository spec that
leaves every field unset. The claim says the merged spec carries the global
value for a field set only globally — but both `FilterConfig.merge_with`
(used by the config-load validator) and the full effective-filter pipeline
yield the repository-side default `"updated"`, because
`model_dump(exclude_none=True)` always emits the non-null-default field. -/
theorem merge_since_filter_type_cex :
    (FilterConfig.merge_with globalCreatedPR FilterConfig.default).pull_requests.since_filter_type
        ≠ "created" ∧
      (effective_filters globalCreatedPR FilterConfig.default).pull_requests.since_filter_type
        ≠ "created" := by
  constructor <;> decide

/-- C5 amended: `FilterConfig.merge_with` performs a field-level override
merge in which, for every null-defaulted (`Option`-typed) field of every
sub-spec, a non-null repository value wins and a null repository value
falls through to the global value; the non-null-defaulted pull-request
`since_filter_type` does not fall through — the merged spec always carries
the repository-side value (its default `"updated"` when unset), and the
same holds for the effective filters used by a fetch (validator merge
followed by `merge_filters`). -/
theorem merge_with_field_override (g r : FilterConfig) :
    ((g.merge_with r).commits.author = overrideOpt r.commits.author g.commits.author) ∧
    ((g.merge_with r).commits.exclude_commit_messages_regex
      = overrideOpt r.commits.exclude_commit_messages_regex
          g.commits.exclude_commit_messages_regex) ∧
    ((g.merge_with r).pull_requests.author
      = overrideOpt r.pull_requests.author g.pull_requests.author) ∧
    ((g.merge_with r).pull_requests.state
      = overrideOpt r.pull_requests.state g.pull_requests.state) ∧
    ((g.merge_with r).pull_requests.labels
      = overrideOpt r.pull_requests.labels g.pull_requests.labels) ∧
    ((g.merge_with r).pull_requests.exclude_pull_request_titles_regex
      = overrideOpt r.pull_requests.exclude_pull_request_titles_regex
          g.pull_requests.exclude_pull_request_titles_regex) ∧
    ((g.merge_with r).pull_requests.since_filter_type
      = r.pull_requests.since_filter_type) ∧
    ((g.merge_with r).issues.author = overrideOpt r.issues.author g.issues.author) ∧
    ((g.merge_with r).issues.milestone = overrideOpt r.issues.milestone g.issues.milestone) ∧
    ((g.merge_with r).issues.labels = overrideOpt r.issues.labels g.issues.labels) ∧
    ((g.merge_with r).issues.assignee = overrideOpt r.issues.assignee g.issues.assignee) ∧
    ((g.merge_with r).issues.exclude_issue_titles_regex
      = overrideOpt r.issues.exclude_issue_titles_regex g.issues.exclude_issue_titles_regex) ∧
    ((g.merge_with r).discussions.author
      = overrideOpt r.discussions.author g.discussions.author) ∧
    ((g.merge_with r).discussions.exclude_discussion_titles_regex
      = overrideOpt r.discussions.exclude_discussion_titles_regex
          g.discussions.exclude_discussion_titles_regex) ∧
    ((effective_filters g r).pull_requests.since_filter_type
      = r.pull_requests.since_filter_type) := by
  refine ⟨map_some_getD _ _, map_some_getD _ _, map_some_getD _ _, map_some_getD _ _,
    map_some_getD _ _, map_some_getD _ _, rfl, map_some_getD _ _, map_some_getD _ _,
    map_some_getD _ _, map_some_getD _ _, map_some_getD _ _, map_some_getD _ _,
    map_some_getD _ _, ?_⟩
  simp [effective_filters, merge_filters, FilterConfig.merge_with,
    PullRequestFilterConfig.model_copy_update, PullRequestFilterConfig.dump_exclude_unset,
    PullRequestFilterConfig.dump_exclude_none]

/-- C9: the filter-spec merge is deterministic and idempotent up to pydantic
equality (`__eq__` compares field values, not the fields-set bookkeeping):
merging a spec with itself yields an equal spec, and — since the source's
`merge_with` mutates `self` and a second identical call therefore re-merges
into the already-merged value — merging the same pair twice yields the same
result both times. -/
theorem merge_with_idempotent (s a b : FilterConfig) :
    FilterConfig.pyEq (s.merge_with s) s ∧
      FilterConfig.pyEq ((a.merge_with b).merge_with b) (a.merge_with b) := by
  exact ⟨⟨⟨map_some_getD_self _, map_some_getD_self _⟩,
      ⟨map_some_getD_self _, map_some_getD_self _, map_some_getD_self _,
        map_some_getD_self _, rfl⟩,
      ⟨map_some_getD_self _, map_some_getD_self _, map_some_getD_self _,
        map_some_getD_self _, map_some_getD_self _⟩,
      ⟨map_some_getD_self _, map_some_getD_self _⟩⟩,
    ⟨⟨map_some_getD_twice _ _, map_some_getD_twice _ _⟩,
      ⟨map_some_getD_twice _ _, map_some_getD_twice _ _, map_some_getD_twice _ _,
        map_some_getD_twice _ _, rfl⟩,
      ⟨map_some_getD_twice _ _, map_some_getD_twice _ _, map_some_getD_twice _ _,
        map_some_getD_twice _ _, map_some_getD_twice _ _⟩,
      ⟨map_some_getD_twice _ _, map_some_getD_twice _ _⟩⟩⟩

/-- A filter spec whose only constraint is a required pull-request label
set. -/
def prLabelFilter (req : List String) : FilterConfig :=
  { FilterConfig.default with
      pull_requests :=
        { PullRequestFilterConfig.default with labels := some req, set_labels := true } }

/-- A filter spec whose only constraint is a required issue label set. -/
def issueLabelFilter (req : List String) : FilterConfig :=
  { FilterConfig.default with
      issues := { IssueFilterConfig.default with labels := some req, set_labels := true } }

/-- C8: label filtering on pull requests and on issues is all-of
containment — under a non-empty required-label filter (and, for pull
requests, a date within the since window so that only the label guard is
in play), an item passes exactly when every required label is present
among its labels. -/
theorem label_filter_is_all_of (research : String → String → Bool) (since : Instant)
    (item : PRItem) (iitem : IssueItem) (req : List String)
    (hdate : ¬ item.updatedAt < since) (hreq : req ≠ []) :
    (pr_passes research (prLabelFilter req) since item
        = req.all fun l => item.labels.contains l) ∧
    (issue_passes research (issueLabelFilter req) iitem
        = req.all fun l => iitem.labels.contains l) := by
  have hempty : req.isEmpty = false := by
    cases req with
    | nil => exact absurd rfl hreq
    | cons x xs => rfl
  constructor
  · simp only [pr_passes, prLabelFilter, PullRequestFilterConfig.default, FilterConfig.default,
      hempty, if_neg hdate, Bool.not_false, Bool.true_and]
    cases hall : req.all fun l => item.labels.contains l <;> simp [hall, not_lt.mp hdate]
  · simp only [issue_passes, issueLabelFilter, IssueFilterConfig.default, FilterConfig.default,
      hempty, Bool.not_false, Bool.true_and]
    cases hall : req.all fun l => iitem.labels.contains l <;> simp [hall]

/-- A pull-request node with labels `{bug, p1}`, updated inside the window. -/
def samplePRItem : PRItem :=
  { number := 1, title := "t", body := "b", author := some "alice", state := "OPEN",
    createdAt := 0, updatedAt := 1, mergedAt := none, url := "u", labels := ["bug", "p1"] }

/-- An issue node with labels `{bug, p1}` and no milestone or assignees. -/
def sampleIssueItem : IssueItem :=
  { number := 2, title := "t", body := "b", author := some "bob", state := "OPEN",
    createdAt := 0, url := "u", labels := ["bug", "p1"], milestone := none,
    assignees := none }

/-- Witness for C8: `{bug, p1}` passes required `{bug}` and fails required
`{bug, p2}`, for pull requests and issues alike. -/
theorem label_filter_is_all_of_witness :
    pr_passes (fun _ _ => false) (prLabelFilter ["bug"]) 0 samplePRItem = true ∧
    pr_passes (fun _ _ => false) (prLabelFilter ["bug", "p2"]) 0 samplePRItem = false ∧
    issue_passes (fun _ _ => false) (issueLabelFilter ["bug"]) sampleIssueItem = true ∧
    issue_passes (fun _ _ => false) (issueLabelFilter ["bug", "p2"]) sampleIssueItem = false := by
  refine ⟨?_, ?_, ?_, ?_⟩
  · rw [(label_filter_is_all_of (fun _ _ => false) 0 samplePRItem sampleIssueItem ["bug"]
      (by decide) (by decide)).1]
    decide
  · rw [(label_filter_is_all_of (fun _ _ => false) 0 samplePRItem sampleIssueItem ["bug", "p2"]
      (by decide) (by decide)).1]
    decide
  · rw [(label_filter_is_all_of (fun _ _ => false) 0 samplePRItem sampleIssueItem ["bug"]
      (by decide) (by decide)).2]
    decide
  · rw [(label_filter_is_all_of (fun _ _ => false) 0 samplePRItem sampleIssueItem ["bug", "p2"]
      (by decide) (by decide)).2]
    decide

/-- A filter spec whose only constraint is a required issue milestone. -/
def issueMilestoneFilter (m : String) : FilterConfig :=
  { FilterConfig.default with
      issues := { IssueFilterConfig.default with milestone := some m, set_milestone := true } }

/-- The same spec with the issue milestone constraint removed. -/
def clearIssueMilestone (f : FilterConfig) : FilterConfig :=
  { f with issues := { f.issues with milestone := none } }

/-- C10: an issue whose milestone is null is never rejected by the
milestone guard — for such an issue the outcome of `issue_passes` is
unchanged by clearing the milestone constraint, and under a
milestone-only filter it passes outright; rejection occurs only when the
issue carries a milestone whose title differs from the required one. -/
theorem milestone_null_never_rejects (research : String → String → Bool)
    (f : FilterConfig) (item : IssueItem) :
    (item.milestone = none →
      issue_passes research f item = issue_passes research (clearIssueMilestone f) item) ∧
    (∀ m, item.milestone = none →
      issue_passes research (issueMilestoneFilter m) item = true) ∧
    (∀ m t, item.milestone = some t →
      issue_passes research (issueMilestoneFilter m) item = (t == m)) := by
  refine ⟨?_, ?_, ?_⟩
  · intro hm
    cases hfm : f.issues.milestone <;>
      simp [issue_passes, clearIssueMilestone, hm, hfm]
  · intro m hm
    simp [issue_passes, issueMilestoneFilter, IssueFilterConfig.default, FilterConfig.default,
      hm]
  · intro m t hm
    simp only [issue_passes, issueMilestoneFilter, IssueFilterConfig.default,
      FilterConfig.default, hm]
    cases hcmp : t == m <;> simp [bne, hcmp]

/-- An issue node carrying milestone `v1`. -/
def sampleMilestoneIssueItem : IssueItem :=
  { sampleIssueItem with milestone := some "v1" }

/-- Witness for C10: the milestone-less issue passes a required-milestone
filter; an issue with milestone `v1` fails a required milestone `v2`. -/
theorem milestone_null_never_rejects_witness :
    issue_passes (fun _ _ => false) (issueMilestoneFilter "v1") sampleIssueItem = true ∧
    issue_passes (fun _ _ => false) (issueMilestoneFilter "v2") sampleMilestoneIssueItem
      = false := by
  constructor
  · exact (milestone_null_never_rejects (fun _ _ => false) FilterConfig.default
      sampleIssueItem).2.1 "v1" rfl
  · rw [(milestone_null_never_rejects (fun _ _ => false) FilterConfig.default
      sampleMilestoneIssueItem).2.2 "v2" "v1" rfl]
    decide

/-- C6: within one repository's fetch, a single enabled data type whose
task raises degrades to an empty list in the dataset while every other
enabled data type's fetched result is returned unchanged — shown for each
of the four data types failing in turn. -/
theorem fetch_repo_data_isolates_failures (repo : RepoConfig) (e : String)
    (lc : List Commit) (lp : List PullRequest) (li : List Issue) (ld : List Discussion)
    (hc : repo.include_commits = true) (hp : repo.include_pull_requests = true)
    (hi : repo.include_issues = true) (hd : repo.include_discussions = true) :
    (fetch_repo_data repo (.error e) (.ok lp) (.ok li) (.ok ld)
      = ⟨repo.name, [], lp, li, ld⟩) ∧
    (fetch_repo_data repo (.ok lc) (.error e) (.ok li) (.ok ld)
      = ⟨repo.name, lc, [], li, ld⟩) ∧
    (fetch_repo_data repo (.ok lc) (.ok lp) (.error e) (.ok ld)
      = ⟨repo.name, lc, lp, [], ld⟩) ∧
    (fetch_repo_data repo (.ok lc) (.ok lp) (.ok li) (.error e)
      = ⟨repo.name, lc, lp, li, []⟩) := by
  simp [fetch_repo_data, hc, hp, hi, hd]

/-- A fully-enabled sample repository configuration. -/
def sampleRepo1 : RepoConfig := ⟨"o/r1", FilterConfig.default, true, true, true, true⟩

/-- A second fully-enabled sample repository configuration. -/
def sampleRepo2 : RepoConfig := ⟨"o/r2", FilterConfig.default, true, true, true, true⟩

/-- A third fully-enabled sample repository configuration. -/
def sampleRepo3 : RepoConfig := ⟨"o/r3", FilterConfig.default, true, true, true, true⟩

/-- A sample pull request for witness datasets. -/
def samplePR : PullRequest :=
  { number := 1, title := "t", body := "b", author := "alice", state := "OPEN",
    created_at := 0, updated_at := 1, merged_at := none, html_url := "u",
    labels := ["bug"] }

/-- Witness for C6: with all four types enabled and the commits task
raising, the dataset holds an empty commits entry and the other types'
results untouched. -/
theorem fetch_repo_data_isolates_failures_witness :
    fetch_repo_data sampleRepo1 (.error "boom") (.ok [samplePR]) (.ok []) (.ok [])
      = ⟨"o/r1", [], [samplePR], [], []⟩ := by
  exact (fetch_repo_data_isolates_failures sampleRepo1 "boom" [] [samplePR] [] []
    rfl rfl rfl rfl).1

/-- Helper: `process_repository` always reports the repository's own name. -/
theorem process_repository_repoName (repo : RepoConfig) (slr smd sj : Bool) (env : RepoEnv) :
    (process_repository repo slr smd sj env).repoName = repo.name := by
  unfold process_repository
  cases repoPipeline smd sj env with
  | ok v => rfl
  | error e => rfl

/-- C1: `process_repository` never propagates an exception from any of its
steps — a failing repository yields a result with a null completion time,
an empty summary and the empty dataset; a batch of N repositories still
yields exactly N results; and the results of repositories other than the
failing one do not depend on the failing repository's environment (any two
environments agreeing outside the failing repository produce the same
results there). -/
theorem process_repository_isolates (slr smd sj : Bool) (bad : RepoConfig) (msg : String)
    (repos : List RepoConfig) (envOf envOf' : RepoConfig → RepoEnv)
    (hfail : repoPipeline smd sj (envOf bad) = .error msg)
    (hagree : ∀ rp : RepoConfig, rp.name ≠ bad.name → envOf' rp = envOf rp) :
    (process_repository bad slr smd sj (envOf bad)
      = ⟨bad.name, none, "", none⟩) ∧
    (gatherResults slr smd sj envOf repos).length = repos.length ∧
    ((gatherResults slr smd sj envOf' repos).filter (fun r => !(r.repoName == bad.name))
      = (gatherResults slr smd sj envOf repos).filter (fun r => !(r.repoName == bad.name))) := by
  refine ⟨?_, ?_, ?_⟩
  · unfold process_repository
    rw [hfail]
  · simp [gatherResults]
  · induction repos with
    | nil => rfl
    | cons rp rs ih =>
      simp only [gatherResults, List.map_cons, List.filter_cons] at *
      rw [process_repository_repoName, process_repository_repoName]
      by_cases hname : rp.name = bad.name
      · simp only [hname, beq_self_eq_true, Bool.not_true]
        exact ih
      · have henv : envOf' rp = envOf rp := hagree rp hname
        have hbeq : (rp.name == bad.name) = false := by
          simp [hname]
        simp only [hbeq, Bool.not_false, henv]
        rw [ih]

/-- A sample per-repository environment in which every step succeeds. -/
def okEnv (n : String) : RepoEnv :=
  { sinceRes := .ok 0
    fetchRes := fun _ => .ok ⟨n, [], [], [], []⟩
    summaryRes := fun _ => .ok "sum"
    saveMarkdownRes := .ok ()
    saveJsonRes := .ok ()
    completionNow := 42 }

/-- A sample per-repository environment whose fetch raises. -/
def failingEnv : RepoEnv := { okEnv "x" with fetchRes := fun _ => .error "boom" }

/-- The witness environment: repository `o/r2` fails, the others succeed. -/
def sampleEnvOf : RepoConfig → RepoEnv :=
  fun rp => if rp.name == "o/r2" then failingEnv else okEnv rp.name

/-- The perturbed witness environment: `o/r2`'s environment is replaced,
everything else is untouched. -/
def sampleEnvOfAlt : RepoConfig → RepoEnv :=
  fun rp => if rp.name == "o/r2" then okEnv "o/r2" else okEnv rp.name

/-- Witness for C1: three repositories with the middle one failing — the
failing repository's result is empty with a null completion time, three
results are produced, and perturbing the failing repository's environment
leaves the other repositories' results unchanged. -/
theorem process_repository_isolates_witness :
    (process_repository sampleRepo2 true true true (sampleEnvOf sampleRepo2)
      = ⟨"o/r2", none, "", none⟩) ∧
    (gatherResults true true true sampleEnvOf [sampleRepo1, sampleRepo2, sampleRepo3]).length
      = 3 ∧
    ((gatherResults true true true sampleEnvOfAlt
        [sampleRepo1, sampleRepo2, sampleRepo3]).filter (fun r => !(r.repoName == "o/r2"))
      = (gatherResults true true true sampleEnvOf
          [sampleRepo1, sampleRepo2, sampleRepo3]).filter (fun r => !(r.repoName == "o/r2"))) := by
  have h := process_repository_isolates true true true sampleRepo2 "boom"
    [sampleRepo1, sampleRepo2, sampleRepo3] sampleEnvOf sampleEnvOfAlt rfl
    (fun rp hrp => by
      have hne : rp.name ≠ "o/r2" := hrp
      simp [sampleEnvOfAlt, sampleEnvOf, hne])
  exact ⟨h.1, h.2.1, h.2.2⟩

/-- C7: releases are a supported activity data type, fetched and filtered
analogously to discussions — a release passes exactly when its publish
timestamp is not before the since boundary and its name does not match the
configured name-exclusion regex; every surviving release of an
enabled-releases repository appears (converted) in `get_releases`' output,
and a successfully fetched release list lands unchanged in the
repository's dataset entry. -/
theorem releases_filtered_like_discussions (research : String → String → Bool)
    (rf : ReleaseFilterConfig) (since : Instant) (data : List ReleaseItem)
    (item : ReleaseItem) :
    (release_passes research rf since item = true ↔
      ¬ item.publishedAt < since ∧
        ∀ pat, rf.exclude_release_names_regex = some pat → research pat item.name = false) ∧
    (item ∈ data → release_passes research rf since item = true →
      releaseToModel item ∈ get_releases research true rf since data) ∧
    (∀ l : List Release, releases_dataset_entry true (.ok l) = l) := by
  refine ⟨?_, ?_, fun l => rfl⟩
  · unfold release_passes
    by_cases hlt : item.publishedAt < since
    · simp only [if_pos hlt]
      simp [hlt]
    · simp only [if_neg hlt]
      cases hx : rf.exclude_release_names_regex with
      | none => simp [hlt, hx]
      | some pat =>
        cases hr : research pat item.name <;> simp [hlt, hx, hr]
  · intro hmem hpass
    unfold get_releases
    simp only [Bool.not_true, Bool.false_eq_true, if_false]
    exact List.mem_map_of_mem releaseToModel (List.mem_filter.mpr ⟨hmem, hpass⟩)

/-- A release node published inside the window, name clean of the
exclusion pattern. -/
def sampleReleaseItem : ReleaseItem :=
  ⟨"1", "v1.0.0", "v1.0.0", "Initial release", 100, "u", some "test_author"⟩

/-- A release node whose name contains the excluded pattern. -/
def sampleAlphaReleaseItem : ReleaseItem :=
  ⟨"2", "v1.1.0-alpha", "v1.1.0-alpha", "Alpha release", 100, "u2", some "test_author"⟩

/-- Helper for the witness regex oracle: does `l` start with `pat`? -/
def charsStartWith : List Char → List Char → Bool
  | [], _ => true
  | _ :: _, [] => false
  | p :: ps, c :: cs => p == c && charsStartWith ps cs

/-- Helper for the witness regex oracle: does `pat` occur inside `l`? -/
def charsHaveInfix (pat : List Char) : List Char → Bool
  | [] => charsStartWith pat []
  | c :: cs => charsStartWith pat (c :: cs) || charsHaveInfix pat cs

/-- A concrete stand-in for the `re.search` oracle in the releases witness:
plain substring containment. -/
def containsMatch (pat s : String) : Bool := charsHaveInfix pat.data s.data

/-- Witness for C7: with exclusion regex `alpha`, the clean release survives
into the output and the alpha release is rejected. -/
theorem releases_filtered_like_discussions_witness :
    releaseToModel sampleReleaseItem ∈
      get_releases containsMatch true ⟨some "alpha"⟩ 0
        [sampleReleaseItem, sampleAlphaReleaseItem] ∧
    release_passes containsMatch ⟨some "alpha"⟩ 0 sampleAlphaReleaseItem = false := by
  have h := releases_filtered_like_discussions containsMatch ⟨some "alpha"⟩ 0
    [sampleReleaseItem, sampleAlphaReleaseItem] sampleReleaseItem
  exact ⟨h.2.1 (by decide) (by decide), by decide⟩

/-- Success of a step outcome as a Boolean. -/
def exceptOk {ε α : Type} : Except ε α → Bool
  | .ok _ => true
  | .error _ => false

/-- The batched update map as a plain projection of the settled results:
one `(repository-qualified key, completion instant)` pair per result with a
non-null completion time, in result order. -/
def updatesOf (config_path : String) (results : List RunResult) : List (String × Instant) :=
  results.filterMap fun r =>
    r.completionTime.map fun t => (_get_run_key config_path (some r.repoName), t)

/-- Helper: inserting a fresh key into the dict appends it. -/
theorem dictInsert_fresh (m : List (String × Instant)) (k : String) (v : Instant)
    (h : ∀ p ∈ m, p.1 ≠ k) : dictInsert m k v = m ++ [(k, v)] := by
  have hc : m.any (fun p => p.1 == k) = false := by
    rw [List.any_eq_false]
    intro p hp
    simpa using h p hp
  simp [dictInsert, hc]

/-- Helper: `_get_run_key` with a fixed config path is injective in the
repository name. -/
theorem run_key_inj (config_path : String) :
    Function.Injective fun rn => _get_run_key config_path (some rn) := by
  intro a b h
  simp only [_get_run_key] at h
  have hd : (config_path ++ "::").data ++ a.data
      = (config_path ++ "::").data ++ b.data := congrArg String.data h
  exact String.ext (List.append_cancel_left hd)

/-- Helper: the fold building `last_run_updates` reduces to appending the
projection `updatesOf` when the incoming keys are fresh and mutually
distinct. -/
theorem collect_foldl_eq (config_path : String) :
    ∀ (results : List RunResult) (acc : List (String × Instant)),
      (∀ p ∈ acc, ∀ q ∈ updatesOf config_path results, p.1 ≠ q.1) →
      ((updatesOf config_path results).map Prod.fst).Nodup →
      List.foldl
        (fun acc r =>
          match r.completionTime with
          | some t => dictInsert acc (_get_run_key config_path (some r.repoName)) t
          | none => acc)
        acc results
        = acc ++ updatesOf config_path results := by
  intro results
  induction results with
  | nil =>
    intro acc _ _
    simp [updatesOf]
  | cons r rs ih =>
    intro acc hdisj hnodup
    cases hr : r.completionTime with
    | none =>
      have hupd : updatesOf config_path (r :: rs) = updatesOf config_path rs := by
        simp [updatesOf, List.filterMap_cons, hr]
      rw [List.foldl_cons]
      simp only [hr]
      rw [hupd] at hdisj hnodup ⊢
      exact ih acc hdisj hnodup
    | some t =>
      have hupd : updatesOf config_path (r :: rs)
          = (_get_run_key config_path (some r.repoName), t) :: updatesOf config_path rs := by
        simp [updatesOf, List.filterMap_cons, hr]
      rw [hupd] at hdisj hnodup ⊢
      have hnodup2 : (_get_run_key config_path (some r.repoName)
            :: (updatesOf config_path rs).map Prod.fst).Nodup := by
        simpa using hnodup
      have hknotin : _get_run_key config_path (some r.repoName)
          ∉ (updatesOf config_path rs).map Prod.fst := (List.nodup_cons.mp hnodup2).1
      have hnodup' : ((updatesOf config_path rs).map Prod.fst).Nodup :=
        (List.nodup_cons.mp hnodup2).2
      have hfresh : ∀ p ∈ acc, p.1 ≠ _get_run_key config_path (some r.repoName) := by
        intro p hp
        exact hdisj p hp _ (List.mem_cons_self _ _)
      rw [List.foldl_cons]
      simp only [hr]
      rw [dictInsert_fresh acc _ t hfresh]
      have hdisj' : ∀ p ∈ acc ++ [(_get_run_key config_path (some r.repoName), t)],
          ∀ q ∈ updatesOf config_path rs, p.1 ≠ q.1 := by
        intro p hp q hq
        rcases List.mem_append.mp hp with hpa | hpk
        · exact hdisj p hpa q (List.mem_cons_of_mem _ hq)
        · rcases List.mem_singleton.mp hpk with rfl
          intro hk
          apply hknotin
          have hk' : _get_run_key config_path (some r.repoName) = q.1 := hk
          rw [hk']
          exact List.mem_map_of_mem Prod.fst hq
      rw [ih _ hdisj' hnodup']
      simp

/-- Helper: with mutually distinct incoming keys,
`collect_last_run_updates` is exactly the `updatesOf` projection. -/
theorem collect_eq_updatesOf (config_path : String) (results : List RunResult)
    (hnodup : ((updatesOf config_path results).map Prod.fst).Nodup) :
    collect_last_run_updates config_path results = updatesOf config_path results := by
  have h := collect_foldl_eq config_path results [] (by simp) hnodup
  simpa [collect_last_run_updates] using h

/-- Helper: the keys of the update projection are the run keys of the
successfully completed results. -/
theorem updatesOf_keys (config_path : String) (results : List RunResult) :
    (updatesOf config_path results).map Prod.fst
      = (results.filter fun r => r.completionTime.isSome).map
          fun r => _get_run_key config_path (some r.repoName) := by
  induction results with
  | nil => rfl
  | cons r rs ih =>
    cases hr : r.completionTime with
    | none => simpa [updatesOf, List.filterMap_cons, List.filter_cons, hr] using ih
    | some t => simpa [updatesOf, List.filterMap_cons, List.filter_cons, hr] using ih

/-- Helper: the update projection has one entry per result with a
non-null completion time. -/
theorem updatesOf_length (config_path : String) (results : List RunResult) :
    (updatesOf config_path results).length
      = (results.filter fun r => r.completionTime.isSome).length := by
  have h := congrArg List.length (updatesOf_keys config_path results)
  simpa using h

/-- Helper: a result's completion time is non-null exactly when tracking is
enabled and the repository's pipeline succeeded. -/
theorem process_completion_isSome (repo : RepoConfig) (slr smd sj : Bool) (env : RepoEnv) :
    (process_repository repo slr smd sj env).completionTime.isSome
      = (slr && exceptOk (repoPipeline smd sj env)) := by
  unfold process_repository
  cases repoPipeline smd sj env with
  | ok v =>
    obtain ⟨s, rd⟩ := v
    cases slr <;> rfl
  | error e => cases slr <;> rfl

/-- Helper: the gathered results carry the repositories' names in order. -/
theorem gatherResults_repoNames (slr smd sj : Bool) (envOf : RepoConfig → RepoEnv)
    (repos : List RepoConfig) :
    (gatherResults slr smd sj envOf repos).map (fun r => r.repoName)
      = repos.map fun rp => rp.name := by
  induction repos with
  | nil => rfl
  | cons rp rs ih =>
    simp only [gatherResults, List.map_cons, List.map_map] at ih ⊢
    rw [process_repository_repoName]
    exact congrArg (rp.name :: ·) ih

/-- Helper: distinct repository names give distinct update keys. -/
theorem updates_keys_nodup (config_path : String) (slr smd sj : Bool)
    (envOf : RepoConfig → RepoEnv) (repos : List RepoConfig)
    (hnodup : (repos.map fun rp => rp.name).Nodup) :
    ((updatesOf config_path (gatherResults slr smd sj envOf repos)).map Prod.fst).Nodup := by
  rw [updatesOf_keys]
  have h1 : ((gatherResults slr smd sj envOf repos).map fun r => r.repoName).Nodup := by
    rw [gatherResults_repoNames]
    exact hnodup
  have h2 : (((gatherResults slr smd sj envOf repos).filter
      fun r => r.completionTime.isSome).map fun r => r.repoName).Nodup :=
    h1.sublist (List.Sublist.map _ (List.filter_sublist _))
  have h3 := h2.map (run_key_inj config_path)
  simpa [List.map_map, Function.comp] using h3

/-- Helper: the count of successfully completed results equals the count of
repositories whose pipeline succeeded under enabled tracking. -/
theorem gather_success_count (slr smd sj : Bool) (envOf : RepoConfig → RepoEnv)
    (repos : List RepoConfig) :
    ((gatherResults slr smd sj envOf repos).filter fun r => r.completionTime.isSome).length
      = (repos.filter fun rp => slr && exceptOk (repoPipeline smd sj (envOf rp))).length := by
  induction repos with
  | nil => rfl
  | cons rp rs ih =>
    simp only [gatherResults, List.map_cons, List.filter_cons] at ih ⊢
    rw [process_completion_isSome]
    cases h : slr && exceptOk (repoPipeline smd sj (envOf rp)) <;> simp [h] <;> exact ih

/-- C2 counterexample: a run with incremental tracking enabled whose only
repository fails performs zero batched state-store updates — the source
guards the call with `if last_run_updates:` — so the batched update is not
invoked exactly once on every orchestrator run. -/
theorem set_batch_skipped_cex :
    (run_report "cfg" true true true (fun _ => failingEnv) [sampleRepo1]).setBatchCalls.length
      ≠ 1 := by
  decide

/-- C2 amended: per orchestrator run the batched state-store update is
invoked at most once, and only after all per-repository results are
settled (it is computed from the full result list); it is skipped exactly
when no repository completed without error with tracking enabled, and when
it does run, its single update map is the projection of the settled
results — one entry per repository (distinct names assumed) that completed
without error with tracking enabled, keyed by the repository-qualified key
and valued by that repository's completion instant. -/
theorem set_batch_at_most_once (config_path : String) (slr smd sj : Bool)
    (envOf : RepoConfig → RepoEnv) (repos : List RepoConfig)
    (hnodup : (repos.map fun rp => rp.name).Nodup) :
    ((run_report config_path slr smd sj envOf repos).setBatchCalls.length ≤ 1) ∧
    ((run_report config_path slr smd sj envOf repos).setBatchCalls = [] ↔
      (repos.filter fun rp => slr && exceptOk (repoPipeline smd sj (envOf rp))).length = 0) ∧
    (∀ m ∈ (run_report config_path slr smd sj envOf repos).setBatchCalls,
      m = updatesOf config_path (gatherResults slr smd sj envOf repos) ∧
      m.length
        = (repos.filter fun rp => slr && exceptOk (repoPipeline smd sj (envOf rp))).length) := by
  have hkeys := updates_keys_nodup config_path slr smd sj envOf repos hnodup
  have hcoll := collect_eq_updatesOf config_path (gatherResults slr smd sj envOf repos) hkeys
  have hlen : (updatesOf config_path (gatherResults slr smd sj envOf repos)).length
      = (repos.filter fun rp => slr && exceptOk (repoPipeline smd sj (envOf rp))).length := by
    rw [updatesOf_length]
    exact gather_success_count slr smd sj envOf repos
  have hrr : (run_report config_path slr smd sj envOf repos).setBatchCalls
      = if (updatesOf config_path (gatherResults slr smd sj envOf repos)).isEmpty then []
        else [updatesOf config_path (gatherResults slr smd sj envOf repos)] := by
    simp only [run_report, hcoll]
  rw [hrr]
  cases hempty : (updatesOf config_path (gatherResults slr smd sj envOf repos)).isEmpty with
  | true =>
    have hnil : updatesOf config_path (gatherResults slr smd sj envOf repos) = [] := by
      simpa [List.isEmpty_iff] using hempty
    simp only [if_pos rfl]
    refine ⟨by simp, ?_, by simp⟩
    simp [← hlen, hnil]
  | false =>
    have hne : updatesOf config_path (gatherResults slr smd sj envOf repos) ≠ [] := by
      simpa [List.isEmpty_iff] using hempty
    simp only [Bool.false_eq_true, if_false]
    refine ⟨by simp, ?_, ?_⟩
    · simp only [List.cons_ne_self]
      constructor
      · intro h
        exact absurd h (by simp)
      · intro h
        rw [← hlen] at h
        exact absurd (List.length_eq_zero.mp h) hne
    · intro m hm
      rcases List.mem_singleton.mp hm with rfl
      exact ⟨rfl, hlen⟩

/-- Witness for C2 amended: two repositories, the second failing — exactly
one batched call happens, carrying exactly the first repository's
qualified key and completion instant. -/
theorem set_batch_at_most_once_witness :
    (run_report "cfg" true true true sampleEnvOf [sampleRepo1, sampleRepo2]).setBatchCalls
      = [[("cfg::o/r1", 42)]] ∧
    (run_report "cfg" true true true sampleEnvOf
      [sampleRepo1, sampleRepo2]).setBatchCalls.length ≤ 1 := by
  have h := set_batch_at_most_once "cfg" true true true sampleEnvOf
    [sampleRepo1, sampleRepo2] (by decide)
  exact ⟨by decide, h.1⟩

end GithubSummary
